import Mathlib

/-!
Verification of the Lesson Event Scheduling & Notification Dispatch Engine
of the SchoolLife attendance system.

The development shallow-embeds the core operations of the source:

* `app/utils/timezone.py` — local/UTC conversion and `next_n_weekly`;
* `app/services/lesson_event_manager.py` — `ensure_bot_schedule_has_events`,
  `reset_lesson_event_to_planned`, the cleanup sweeps;
* `app/workers/dispatcher.py` — `_poll_and_send` / `_send_attendance_notification`;
* `app/services/attendance_service.py` — `save_attendance`;
* `app/services/conducted_lesson_service.py` — `_calculate_attendance_stats`;
* `app/services/payroll_service.py` — `create_automatic_payroll`.

Time is modelled as integer minutes.  The UTC timeline counts minutes since
2024-01-01 00:00 UTC (a Monday), so `weekday = (minutes / 1440) % 7` matches
Python's `datetime.weekday()` (0 = Monday).  Source datetimes carry seconds,
but every comparison and arithmetic step used by the embedded code happens at
whole-minute granularity (`next_n_weekly` zeroes seconds/microseconds before
comparing), so minute resolution is faithful.
-/

set_option maxHeartbeats 1000000
set_option maxRecDepth 100000

/-! ### Time Conversion Layer (`app/utils/timezone.py`)

`ZoneInfo("Europe/Kyiv")` is modelled by its offset rule: UTC+3 (EEST) between
the last Sunday of March 01:00 UTC and the last Sunday of October 01:00 UTC,
UTC+2 (EET) otherwise.  The table `kyivDst` lists the DST intervals (in UTC
minutes) for 2024-2027, the window all concrete inputs below live in; instants
outside the table are modelled as standard time.  Conversion of a local wall
time uses Python's `fold=0` disambiguation: a wall time in the repeated
fall-back hour maps to the earlier (DST) instant, and a wall time in the
spring-forward gap is interpreted with the pre-gap (standard) offset.  Both
behaviours are captured by shifting the interval ends by the DST offset
(180 min) when classifying wall-clock times. -/

abbrev DstTable := List (Int × Int)

def inDst (tbl : DstTable) (u : Int) : Bool :=
  tbl.any (fun p => decide (p.1 ≤ u) && decide (u < p.2))

/-- UTC offset (minutes) of Europe/Kyiv at a UTC instant. -/
def offU (tbl : DstTable) (u : Int) : Int := if inDst tbl u then 180 else 120

def dstShift (tbl : DstTable) : DstTable := tbl.map (fun p => (p.1 + 180, p.2 + 180))

/-- UTC offset (minutes) attributed to a local wall-clock minute (`fold=0`). -/
def offL (tbl : DstTable) (w : Int) : Int := if inDst (dstShift tbl) w then 180 else 120

/-- `from_utc_to_kyiv` / `datetime.now(KYIV)`: UTC instant to local wall minutes. -/
def utcToLocal (tbl : DstTable) (u : Int) : Int := u + offU tbl u

/-- `to_utc` / `astimezone(timezone.utc)` on an aware Kyiv wall time. -/
def localToUtc (tbl : DstTable) (w : Int) : Int := w - offL tbl w

/-- Calendar day index (day 0 = 2024-01-01) of a minute count on either timeline. -/
def localDay (t : Int) : Int := t / 1440

/-- Wall-clock minute within the day. -/
def timeOfDay (t : Int) : Int := t % 1440

/-- Weekday, 0 = Monday .. 6 = Sunday (epoch day 0 is a Monday). -/
def weekdayOf (t : Int) : Int := localDay t % 7

/-- Europe/Kyiv DST intervals 2024-2027 in UTC minutes since 2024-01-01:
2024-03-31..2024-10-27, 2025-03-30..2025-10-26, 2026-03-29..2026-10-25,
2027-03-28..2027-10-31, each switching at 01:00 UTC. -/
def kyivDst : DstTable :=
  [(90 * 1440 + 60, 300 * 1440 + 60),
   (454 * 1440 + 60, 664 * 1440 + 60),
   (818 * 1440 + 60, 1028 * 1440 + 60),
   (1182 * 1440 + 60, 1399 * 1440 + 60)]

/-- Well-formedness of a DST table: every transition happens at 01:00 UTC,
i.e. interval bounds are ≡ 60 (mod 1440).  (Used only to show that the
spring-forward gap cannot straddle midnight.) -/
abbrev WFdst (tbl : DstTable) : Prop := ∀ p ∈ tbl, p.1 % 1440 = 60

/-! ### Recurrence Generator (`next_n_weekly`, `app/utils/timezone.py:24-64`) -/

/-- `next_n_weekly(local_weekday, local_hour, local_minute, n, include_today)`.
`now_local = datetime.now(KYIV)`; `first_local = now_local.replace(hour, minute,
second=0, microsecond=0)`; `days_ahead = (local_weekday - first_local.weekday()) % 7`;
on `days_ahead == 0`: keep today iff `include_today and first_local > now_local`,
else roll 7 days; then `first_local += days_ahead` days (wall-clock addition),
convert to UTC, and emit `first_utc + 7*i` days (absolute UTC addition) for
`i < n`. -/
def next_n_weekly (tbl : DstTable) (nowUtc : Int)
    (local_weekday local_hour local_minute : Int) (n : Nat) (include_today : Bool) :
    List Int :=
  let now_local := utcToLocal tbl nowUtc
  let first0 := localDay now_local * 1440 + local_hour * 60 + local_minute
  let d0 := (local_weekday - weekdayOf now_local) % 7
  let days_ahead :=
    if d0 = 0 then (if include_today && decide (first0 > now_local) then 0 else 7) else d0
  let first_local := first0 + days_ahead * 1440
  let first_utc := localToUtc tbl first_local
  (List.range n).map (fun i : Nat => first_utc + 10080 * (i : Int))

/-- The first UTC instant `next_n_weekly` emits (its `first_utc`). -/
def nnwFirst (tbl : DstTable) (nowUtc wd h m : Int) (inc : Bool) : Int :=
  let now_local := utcToLocal tbl nowUtc
  let first0 := localDay now_local * 1440 + h * 60 + m
  let d0 := (wd - weekdayOf now_local) % 7
  let days_ahead := if d0 = 0 then (if inc && decide (first0 > now_local) then 0 else 7) else d0
  localToUtc tbl (first0 + days_ahead * 1440)

/-! ### Data model (`app/models/`)

`LessonEvent` mirrors `app/models/lesson_event.py`.  Dates are day indices,
instants are UTC minutes.  The `idempotency_key` string
`"bot_schedule_{bot_schedule_id}_{yyyymmdd}"` is modelled as the pair of its
two components; the SQL `LIKE 'bot_schedule_{id}_%'` lookup matches on the
first component.  Chat ids, when present, are assumed nonzero (Python
truthiness), so `tg_chat_id if tg_chat_id else None` is an `Option`. -/

inductive LessonEventStatus where
  | PLANNED | SENT | COMPLETED | SKIPPED | CANCELLED
deriving DecidableEq

structure LessonEvent where
  id : Nat
  schedule_id : Nat
  date : Int
  club_id : Option Nat
  teacher_id : Nat
  status : LessonEventStatus
  start_at : Int
  notify_at : Int
  sent_at : Option Int
  completed_at : Option Int
  teacher_chat_id : Option Int
  send_attempts : Int
  last_error : Option String
  idempotency_key : Option (Nat × Int)
deriving DecidableEq

/-- `app/models/schedule.py` joined with its teacher's `tg_chat_id`
(the materializer reads them together through `selectinload`). -/
structure Sched where
  id : Nat
  weekday : Int
  start_hour : Int
  start_minute : Int
  club_id : Option Nat
  teacher_id : Nat
  teacher_chat_id : Option Int
  active : Bool
deriving DecidableEq

/-- `app/models/bot_schedule.py`: the notification configuration.
`custom_time` (minutes of local day) is carried because the source declares
and loads it; `ensure_bot_schedule_has_events` reads it into a local variable
and never uses it. -/
structure BotSchedule where
  id : Nat
  schedule_id : Nat
  enabled : Bool
  offset_minutes : Int
  custom_time : Option Int
deriving DecidableEq

inductive AttStatus where
  | PRESENT | ABSENT
deriving DecidableEq

/-- `app/models/attendance.py`; unique on (lesson_event_id, student_id). -/
structure Mark where
  lesson_event_id : Nat
  student_id : Nat
  status : AttStatus
  marked_by : Option Int
  marked_at : Int
deriving DecidableEq

/-! ### Event Materializer (`LessonEventManager.ensure_bot_schedule_has_events`,
`app/services/lesson_event_manager.py:177-290`)

The session is a list of rows plus a fresh-id counter.  `UPDATE ... WHERE id =
existing.id` is modelled as `List.set` at the index `findIdx?` returned (row
ids are unique, being primary keys).  `-- limit(1)` = first match in row
order. -/

structure MatState where
  events : List LessonEvent
  nextId : Nat
deriving DecidableEq

def dummyEvent : LessonEvent :=
  ⟨0, 0, 0, none, 0, .PLANNED, 0, 0, none, none, none, 0, none, none⟩

/-- `LessonEvent.idempotency_key LIKE 'bot_schedule_{bsId}_%'`. -/
def eventKeyFor (bsId : Nat) (e : LessonEvent) : Bool :=
  match e.idempotency_key with
  | some k => k.1 == bsId
  | none => false

/-- The existing-event lookup of the materializer: same schedule, same target
date, idempotency key of this bot schedule. -/
def matMatches (schedId bsId : Nat) (d : Int) (e : LessonEvent) : Bool :=
  e.schedule_id == schedId && e.date == d && eventKeyFor bsId e

/-- The `update(...).values(...)` applied to a found existing event
(`lesson_event_manager.py:251-264`). -/
def refreshEvent (bs : BotSchedule) (sched : Sched) (startAt : Int)
    (e : LessonEvent) : LessonEvent :=
  { e with start_at := startAt,
           notify_at := startAt - bs.offset_minutes,
           teacher_chat_id := sched.teacher_chat_id,
           status := .PLANNED,
           sent_at := none,
           completed_at := none,
           send_attempts := 0,
           last_error := none }

/-- The freshly inserted `LessonEvent(...)` (`lesson_event_manager.py:268-280`). -/
def freshEvent (bs : BotSchedule) (sched : Sched) (startAt d : Int)
    (id : Nat) : LessonEvent :=
  { id := id
    schedule_id := sched.id
    date := d
    club_id := sched.club_id
    teacher_id := sched.teacher_id
    status := .PLANNED
    start_at := startAt
    notify_at := startAt - bs.offset_minutes
    sent_at := none
    completed_at := none
    teacher_chat_id := sched.teacher_chat_id
    send_attempts := 0
    last_error := none
    idempotency_key := some (bs.id, d) }

/-- The lookup predicate for one occurrence: match on schedule, the
occurrence's Kyiv calendar date (`start_at_utc.astimezone(KYIV).date()`), and
the configuration's idempotency-key family. -/
def matPred (tbl : DstTable) (bs : BotSchedule) (sched : Sched) (startAt : Int) :
    LessonEvent → Bool :=
  matMatches sched.id bs.id (localDay (utcToLocal tbl startAt))

/-- One iteration of the `for start_at_utc in occurrences` loop. -/
def matStep (tbl : DstTable) (bs : BotSchedule) (sched : Sched)
    (st : MatState) (startAt : Int) : MatState :=
  let d := localDay (utcToLocal tbl startAt)
  match st.events.findIdx? (matPred tbl bs sched startAt) with
  | some i =>
      let e' := refreshEvent bs sched startAt (st.events.getD i dummyEvent)
      { st with events := st.events.set i e' }
  | none =>
      { events := st.events ++ [freshEvent bs sched startAt d st.nextId],
        nextId := st.nextId + 1 }

def materializeList (tbl : DstTable) (bs : BotSchedule) (sched : Sched)
    (occs : List Int) (st : MatState) : MatState :=
  occs.foldl (matStep tbl bs sched) st

/-- `ensure_bot_schedule_has_events`: generate 52 weekly occurrences from the
lesson's start time (`schedule.start_time`, weekday converted to 0-based) with
`include_today=True`, then insert-or-refresh one row per occurrence date.
`notify_at = start_at - offset_minutes`; `custom_time` is not consulted. -/
def ensure_bot_schedule_has_events (tbl : DstTable) (nowUtc : Int)
    (bs : BotSchedule) (sched : Sched) (st : MatState) : MatState :=
  materializeList tbl bs sched
    (next_n_weekly tbl nowUtc (sched.weekday - 1) sched.start_hour sched.start_minute 52 true)
    st

/-- `LessonEventManager.reset_lesson_event_to_planned`
(`lesson_event_manager.py:149-175`): unconditional update of the row. -/
def reset_lesson_event_to_planned (events : List LessonEvent) (id : Nat) :
    List LessonEvent :=
  events.map (fun e =>
    if e.id == id then { e with status := .PLANNED, sent_at := none, completed_at := none }
    else e)

/-! ### Cleanup sweeps (`lesson_event_manager.py:292-437`).  Each sweep deletes
the rows selected by its query; the surviving rows are returned.  Presence of
attendance/conducted rows is abstracted as predicates on the event id. -/

def cleanup_past_lesson_events (events : List LessonEvent)
    (hasAttendance hasConducted : Nat → Bool) (today : Int) : List LessonEvent :=
  events.filter (fun e =>
    !(e.status == .PLANNED && decide (e.date < today) &&
      !hasAttendance e.id && !hasConducted e.id))

/-- `combine_date_time_to_utc(event.date, schedule.start_time)`. -/
def expected_start_at (tbl : DstTable) (sched : Sched) (d : Int) : Int :=
  localToUtc tbl (d * 1440 + sched.start_hour * 60 + sched.start_minute)

/-- One active schedule's pass of `cleanup_outdated_future_events`; deletion
requires a drift strictly above 60 seconds, i.e. at least 2 whole minutes. -/
def cleanup_outdated_future_events (tbl : DstTable) (events : List LessonEvent)
    (hasAttendance : Nat → Bool) (today : Int) (sched : Sched) : List LessonEvent :=
  events.filter (fun e =>
    !(e.schedule_id == sched.id && e.status == .PLANNED && decide (today ≤ e.date) &&
      !hasAttendance e.id &&
      decide (1 < (e.start_at - expected_start_at tbl sched e.date).natAbs)))

/-! ### Notification Dispatcher (`app/workers/dispatcher.py`)

`_poll_and_send` selects rows with `status == PLANNED, notify_at <= now,
sent_at IS NULL ... FOR UPDATE SKIP LOCKED`.  `_send_attendance_notification`
returns untouched when the event has no `teacher_chat_id`; marks SKIPPED when
the schedule has no enrolled students; on successful send sets
`sent_at`/`SENT`; and on a send exception only logs and rolls back, leaving
the row exactly as it was. -/

def dueEvent (now : Int) (e : LessonEvent) : Bool :=
  e.status == .PLANNED && decide (e.notify_at ≤ now) && e.sent_at == none

def send_attendance_notification (now : Int) (hasStudents sendOk : Bool)
    (e : LessonEvent) : LessonEvent :=
  match e.teacher_chat_id with
  | none => e
  | some _ =>
    if hasStudents then
      if sendOk then { e with sent_at := some now, status := .SENT }
      else e
    else { e with status := .SKIPPED, last_error := some "No students in schedule" }

/-! Two concurrent poll cycles over one due row.  Each cycle is two atomic
database interactions: the locking SELECT (`FOR UPDATE SKIP LOCKED` atomically
tests and takes the row lock, skipping a row another transaction holds) and
the processing step ending in COMMIT (which releases the lock).  A cycle whose
SELECT returned nothing processes nothing. -/

structure DispatchSt where
  ev : LessonEvent
  lockHolder : Option Bool
  sends : Nat
  sentTransitions : Nat
deriving DecidableEq

inductive PollAct where
  | sel (p : Bool)
  | proc (p : Bool)
deriving DecidableEq

def pollCycle (p : Bool) : List PollAct := [.sel p, .proc p]

def applyAct (now : Int) (hasStudents sendOk : Bool) (s : DispatchSt) :
    PollAct → DispatchSt
  | .sel p =>
      if dueEvent now s.ev && s.lockHolder == none then { s with lockHolder := some p }
      else s
  | .proc p =>
      if s.lockHolder == some p then
        match s.ev.teacher_chat_id with
        | none => { s with lockHolder := none }
        | some _ =>
          if hasStudents then
            if sendOk then
              let ev' := { s.ev with sent_at := some now, status := .SENT }
              let tr := if s.ev.status == .PLANNED then 1 else 0
              { ev := ev', lockHolder := none, sends := s.sends + 1,
                sentTransitions := s.sentTransitions + tr }
            else { s with lockHolder := none }
          else
            let ev' := { s.ev with status := .SKIPPED, last_error := some "No students in schedule" }
            { s with ev := ev', lockHolder := none }
      else s

def runActs (now : Int) (hasStudents sendOk : Bool) (s0 : DispatchSt)
    (acts : List PollAct) : DispatchSt :=
  acts.foldl (applyAct now hasStudents sendOk) s0

/-- All interleavings of two instruction sequences. -/
def interleavings : List α → List α → List (List α)
  | [], ys => [ys]
  | x :: xs, [] => [x :: xs]
  | x :: xs, y :: ys =>
      (interleavings xs (y :: ys)).map (x :: ·) ++
      (interleavings (x :: xs) ys).map (y :: ·)

/-! ### Attendance Interaction Handler (`AttendanceService.save_attendance`,
`app/services/attendance_service.py:74-145`) -/

/-- `lesson_event.attendance_records`. -/
def attendance_records (marks : List Mark) (eid : Nat) : List Mark :=
  marks.filter (fun m => m.lesson_event_id == eid)

/-- `finish`: insert a PRESENT mark for every enrolled student without one
(`set(all) - set(existing)`; enrolled ids are distinct rows of
`ScheduleEnrollment`), mark the event COMPLETED with `completed_at = now`, and
stamp `marked_by` on all of the event's marks. -/
def save_attendance (enrolled : List Nat) (marks : List Mark)
    (e : LessonEvent) (now marked_by : Int) : List Mark × LessonEvent :=
  let existing := (marks.filter (fun m => m.lesson_event_id == e.id)).map (·.student_id)
  let missing := enrolled.filter (fun s => !existing.elem s)
  let inserted := marks ++ missing.map (fun s => ⟨e.id, s, .PRESENT, some marked_by, now⟩)
  let updated := inserted.map (fun m =>
    if m.lesson_event_id == e.id then { m with marked_by := some marked_by } else m)
  (updated, { e with status := .COMPLETED, completed_at := some now })

/-- `ConductedLessonService._calculate_attendance_stats`
(`conducted_lesson_service.py:104-114`): (total, present, absent). -/
def calculate_attendance_stats (records : List Mark) : Nat × Nat × Nat :=
  let total := records.length
  let present := (records.filter (fun m => m.status == .PRESENT)).length
  (total, present, total - present)

/-! ### Derived Record Calculator (`PayrollService`,
`app/services/payroll_service.py`).  `amount_decimal` is modelled in minor
currency units (an Int), faithful to `Decimal` comparison and multiplication
by a count. -/

inductive PayRateType where
  | PER_LESSON | PER_PRESENT
deriving DecidableEq

structure PayRate where
  teacher_id : Nat
  rate_type : PayRateType
  amount_decimal : Int
  active_from : Int
  active_to : Option Int
deriving DecidableEq

inductive PayrollBasis where
  | AUTO | MANUAL
deriving DecidableEq

structure Payroll where
  teacher_id : Nat
  lesson_event_id : Nat
  basis : PayrollBasis
  amount_decimal : Int
deriving DecidableEq

structure PayrollDB where
  events : List LessonEvent
  teachers : List Nat
  marks : List Mark
  rates : List PayRate
  payrolls : List Payroll
deriving DecidableEq

def has_existing_payroll (db : PayrollDB) (eid : Nat) : Bool :=
  db.payrolls.any (fun p => p.lesson_event_id == eid)

def count_present_students (db : PayrollDB) (eid : Nat) : Nat :=
  (db.marks.filter (fun m => m.lesson_event_id == eid && m.status == .PRESENT)).length

/-- `get_active_pay_rate`: rates of the teacher whose `[active_from, active_to]`
range contains the date, most recent `active_from` first (`ORDER BY active_from
DESC LIMIT 1`; the earliest-listed rate wins a tie). -/
def get_active_pay_rate (db : PayrollDB) (tid : Nat) (d : Int) : Option PayRate :=
  let cands := db.rates.filter (fun r =>
    r.teacher_id == tid && decide (r.active_from ≤ d) &&
    (match r.active_to with
     | none => true
     | some t => decide (d ≤ t)))
  cands.foldl (fun acc r =>
    match acc with
    | none => some r
    | some b => if decide (b.active_from < r.active_from) then some r else acc) none

def calculate_lesson_payment (db : PayrollDB) (eid : Nat) (r : PayRate) : Int :=
  match r.rate_type with
  | .PER_LESSON => r.amount_decimal
  | .PER_PRESENT => r.amount_decimal * (count_present_students db eid : Int)

/-- `create_automatic_payroll` (`payroll_service.py:97-178`). -/
def create_automatic_payroll (db : PayrollDB) (eid : Nat) : PayrollDB :=
  if has_existing_payroll db eid then db
  else
    match db.events.find? (fun e => e.id == eid) with
    | none => db
    | some ev =>
      if !db.teachers.elem ev.teacher_id then db
      else if count_present_students db eid == 0 then db
      else
        match get_active_pay_rate db ev.teacher_id ev.date with
        | none => db
        | some r =>
          let amount := calculate_lesson_payment db eid r
          if amount ≤ 0 then db
          else { db with payrolls := db.payrolls ++ [⟨ev.teacher_id, eid, .AUTO, amount⟩] }

def countAutoPayrolls (db : PayrollDB) (eid : Nat) : Nat :=
  (db.payrolls.filter (fun p => p.lesson_event_id == eid && p.basis == .AUTO)).length

/-! ### Auxiliary definitions used by the statements below -/

/-- The store already holds, for occurrence `startAt`, exactly the row the
materializer would produce: the lookup finds a row whose refresh is a no-op. -/
def matSat (tbl : DstTable) (bs : BotSchedule) (sched : Sched) (startAt : Int)
    (st : MatState) : Prop :=
  ∃ i e, st.events.findIdx? (matPred tbl bs sched startAt) = some i ∧
    st.events[i]? = some e ∧ refreshEvent bs sched startAt e = e

/-- The statuses the spec designates as terminal. -/
def terminalStatus : LessonEventStatus → Bool
  | .COMPLETED => true
  | .SKIPPED => true
  | .CANCELLED => true
  | _ => false

/-- Fixture: a Monday 14:00 Kyiv schedule (weekday 1-based as in the source). -/
def schedW : Sched := ⟨1, 1, 14, 0, some 5, 7, some 777, true⟩

/-- Fixture: notification configuration, 10-minute offset, no custom time. -/
def bsW : BotSchedule := ⟨1, 1, true, 10, none⟩

/-- Fixture: configuration with an explicit override time 12:00 (720 min). -/
def bs7 : BotSchedule := ⟨1, 1, true, 0, some 720⟩

/-- Fixture: a due PLANNED occurrence with a teacher chat id. -/
def ev8 : LessonEvent :=
  ⟨3, 1, 658, some 5, 7, .PLANNED, 948180, 948170, none, none, some 777, 0, none,
    some (1, 658)⟩

/-- Fixture: a COMPLETED occurrence. -/
def evC9 : LessonEvent :=
  ⟨1, 1, 658, some 5, 7, .COMPLETED, 948180, 948170, some 948000, some 948400,
    some 777, 0, none, some (1, 658)⟩

/-- Fixture: a due PLANNED occurrence lacking a teacher chat id. -/
def ev10 : LessonEvent :=
  ⟨4, 1, 658, some 5, 7, .PLANNED, 948180, 948170, none, none, none, 0, none,
    some (1, 658)⟩

/-- Fixture: a COMPLETED occurrence used for the payroll scenario. -/
def evW6 : LessonEvent :=
  ⟨10, 1, 658, some 5, 7, .COMPLETED, 948180, 948170, none, some 948400, some 777,
    0, none, none⟩

/-- Fixture: payroll database — one completed occurrence, one teacher, one
PRESENT mark, one flat-rate definition active on the lesson date, no payroll
rows yet. -/
def dbW6 : PayrollDB :=
  { events := [evW6], teachers := [7],
    marks := [⟨10, 100, .PRESENT, some 777, 948300⟩],
    rates := [⟨7, .PER_LESSON, 50000, 600, none⟩],
    payrolls := [] }

/-! ### List helper lemmas (row lookup / in-place update bookkeeping) -/

theorem findIdx?_some_getElem {p : α → Bool} :
    ∀ {l : List α} {i : Nat}, l.findIdx? p = some i →
      ∃ e, l[i]? = some e ∧ p e = true := by
  intro l
  induction l with
  | nil => intro i h; simp [List.findIdx?_nil] at h
  | cons a l ih =>
      intro i h
      rw [List.findIdx?_cons] at h
      by_cases hp : p a
      · simp [hp] at h
        exact ⟨a, by simp [← h], hp⟩
      · simp [hp] at h
        obtain ⟨j, hj, rfl⟩ := h
        obtain ⟨e, he, hpe⟩ := ih hj
        exact ⟨e, by simpa using he, hpe⟩

theorem findIdx?_set_congr {p : α → Bool} :
    ∀ {l : List α} {j : Nat} {x e : α}, l[j]? = some e → p x = p e →
      (l.set j x).findIdx? p = l.findIdx? p := by
  intro l
  induction l with
  | nil => intro j x e h _; simp at h
  | cons a l ih =>
      intro j x e h hpe
      cases j with
      | zero =>
          simp at h
          subst h
          simp [List.set, List.findIdx?_cons, hpe]
      | succ j =>
          simp at h
          simp [List.set, List.findIdx?_cons, ih h hpe]

theorem findIdx?_append_some {p : α → Bool} {l : List α} {i : Nat} (ys : List α)
    (h : l.findIdx? p = some i) : (l ++ ys).findIdx? p = some i := by
  rw [List.findIdx?_append, h]
  rfl

theorem findIdx?_append_one {p : α → Bool} {l : List α} {x : α}
    (h : l.findIdx? p = none) (hx : p x = true) :
    (l ++ [x]).findIdx? p = some l.length := by
  rw [List.findIdx?_append, h]
  simp [List.findIdx?_cons, hx]

theorem getElem?_set_same {l : List α} {i : Nat} {e x : α} (h : l[i]? = some e) :
    (l.set i x)[i]? = some x := by
  induction l generalizing i with
  | nil => simp at h
  | cons a l ih =>
      cases i with
      | zero => simp [List.set]
      | succ i => simp_all [List.set]

theorem getElem?_set_other {l : List α} {i j : Nat} {x : α} (h : i ≠ j) :
    (l.set j x)[i]? = l[i]? := by
  induction l generalizing i j with
  | nil => simp
  | cons a l ih =>
      cases j with
      | zero =>
          cases i with
          | zero => exact absurd rfl h
          | succ i => simp [List.set]
      | succ j =>
          cases i with
          | zero => simp [List.set]
          | succ i => simpa [List.set] using ih (by omega)

theorem getElem?_append_of_some {l : List α} {i : Nat} {e : α} (ys : List α)
    (h : l[i]? = some e) : (l ++ ys)[i]? = some e := by
  induction l generalizing i with
  | nil => simp at h
  | cons a l ih =>
      cases i with
      | zero => simpa using h
      | succ i => simpa using ih (by simpa using h)

theorem getElem?_append_length {l : List α} {x : α} :
    (l ++ [x])[l.length]? = some x := by
  induction l with
  | nil => rfl
  | cons a l ih => simp [ih]

theorem set_self_of_getElem {l : List α} {i : Nat} {e : α} (h : l[i]? = some e) :
    l.set i e = l := by
  induction l generalizing i with
  | nil => simp at h
  | cons a l ih =>
      cases i with
      | zero => simp at h; simp [List.set, h]
      | succ i => simp at h; simp [List.set, ih h]

theorem mem_of_mem_set {l : List α} {i : Nat} {x a : α} (h : a ∈ l.set i x) :
    a ∈ l ∨ a = x := by
  induction l generalizing i with
  | nil => simp at h
  | cons b l ih =>
      cases i with
      | zero =>
          rcases (by simpa [List.set] using h : a = x ∨ a ∈ l) with h' | h'
          · exact Or.inr h'
          · exact Or.inl (List.mem_cons_of_mem _ h')
      | succ i =>
          rcases (by simpa [List.set] using h : a = b ∨ a ∈ l.set i x) with h' | h'
          · exact Or.inl (by simp [h'])
          · rcases ih h' with h'' | h''
            · exact Or.inl (List.mem_cons_of_mem _ h'')
            · exact Or.inr h''

/-! ### Materializer idempotence machinery (claim C1)

`matSat o st` says the store already holds the row the materializer would
produce for occurrence `o`: the lookup finds a row whose refresh is a no-op.
One pass establishes it for every occurrence (occurrence dates being
distinct), and a pass over a saturated store is the identity. -/

theorem matPred_refresh (tbl : DstTable) (bs : BotSchedule) (sched : Sched)
    (o a : Int) (e : LessonEvent) :
    matPred tbl bs sched o (refreshEvent bs sched a e) = matPred tbl bs sched o e := rfl

theorem refresh_refresh (bs : BotSchedule) (sched : Sched) (a : Int) (e : LessonEvent) :
    refreshEvent bs sched a (refreshEvent bs sched a e) = refreshEvent bs sched a e := rfl

theorem matPred_fresh (tbl : DstTable) (bs : BotSchedule) (sched : Sched)
    (o : Int) (id : Nat) :
    matPred tbl bs sched o
      (freshEvent bs sched o (localDay (utcToLocal tbl o)) id) = true := by
  simp [matPred, matMatches, eventKeyFor, freshEvent]

theorem refresh_fresh (bs : BotSchedule) (sched : Sched) (o d : Int) (id : Nat) :
    refreshEvent bs sched o (freshEvent bs sched o d id) = freshEvent bs sched o d id := rfl

theorem matStep_sat (tbl : DstTable) (bs : BotSchedule) (sched : Sched)
    (st : MatState) (o : Int) :
    matSat tbl bs sched o (matStep tbl bs sched st o) := by
  cases h : st.events.findIdx? (matPred tbl bs sched o) with
  | some i =>
      obtain ⟨e, he, hpe⟩ := findIdx?_some_getElem h
      refine ⟨i, refreshEvent bs sched o e, ?_, ?_, refresh_refresh ..⟩
      · show (matStep tbl bs sched st o).events.findIdx? _ = some i
        simp only [matStep]
        rw [h]
        simp only [List.getD_eq_getElem?_getD, he, Option.getD_some]
        rw [findIdx?_set_congr he (matPred_refresh ..)]
        exact h
      · show (matStep tbl bs sched st o).events[i]? = some _
        simp only [matStep]
        rw [h]
        simp only [List.getD_eq_getElem?_getD, he, Option.getD_some]
        exact getElem?_set_same he
  | none =>
      refine ⟨st.events.length, freshEvent bs sched o (localDay (utcToLocal tbl o)) st.nextId,
        ?_, ?_, refresh_fresh ..⟩
      · show (matStep tbl bs sched st o).events.findIdx? _ = some _
        simp only [matStep]
        rw [h]
        exact findIdx?_append_one h (matPred_fresh ..)
      · show (matStep tbl bs sched st o).events[st.events.length]? = some _
        simp only [matStep]
        rw [h]
        exact getElem?_append_length

theorem matPred_disjoint (tbl : DstTable) (bs : BotSchedule) (sched : Sched)
    {o o' : Int} (hd : localDay (utcToLocal tbl o) ≠ localDay (utcToLocal tbl o'))
    {e : LessonEvent} (h : matPred tbl bs sched o e = true) :
    matPred tbl bs sched o' e = false := by
  simp only [matPred, matMatches, Bool.and_eq_true, beq_iff_eq] at h
  apply Bool.eq_false_iff.mpr
  intro hc
  simp only [matPred, matMatches, Bool.and_eq_true, beq_iff_eq] at hc
  exact hd (by rw [← h.1.2, hc.1.2])

theorem matStep_preserves_sat (tbl : DstTable) (bs : BotSchedule) (sched : Sched)
    {o o' : Int} (hd : localDay (utcToLocal tbl o) ≠ localDay (utcToLocal tbl o'))
    {st : MatState} (hs : matSat tbl bs sched o st) :
    matSat tbl bs sched o (matStep tbl bs sched st o') := by
  obtain ⟨i, e, hfi, hgi, hre⟩ := hs
  cases h : st.events.findIdx? (matPred tbl bs sched o') with
  | some j =>
      obtain ⟨e2, he2, hpe2⟩ := findIdx?_some_getElem h
      have hij : i ≠ j := by
        intro hij
        subst hij
        rw [hgi] at he2
        cases he2
        have hpo : matPred tbl bs sched o e = true := by
          obtain ⟨e3, he3, hpe3⟩ := findIdx?_some_getElem hfi
          rw [hgi] at he3; cases he3; exact hpe3
        rw [matPred_disjoint tbl bs sched hd hpo] at hpe2
        cases hpe2
      refine ⟨i, e, ?_, ?_, hre⟩
      · show (matStep tbl bs sched st o').events.findIdx? _ = some i
        simp only [matStep]
        rw [h]
        simp only [List.getD_eq_getElem?_getD, he2, Option.getD_some]
        rw [findIdx?_set_congr he2 (matPred_refresh ..)]
        exact hfi
      · show (matStep tbl bs sched st o').events[i]? = some e
        simp only [matStep]
        rw [h]
        simp only [List.getD_eq_getElem?_getD, he2, Option.getD_some]
        rw [getElem?_set_other hij]
        exact hgi
  | none =>
      refine ⟨i, e, ?_, ?_, hre⟩
      · show (matStep tbl bs sched st o').events.findIdx? _ = some i
        simp only [matStep]
        rw [h]
        exact findIdx?_append_some _ hfi
      · show (matStep tbl bs sched st o').events[i]? = some e
        simp only [matStep]
        rw [h]
        exact getElem?_append_of_some _ hgi

theorem matStep_of_sat (tbl : DstTable) (bs : BotSchedule) (sched : Sched)
    {o : Int} {st : MatState} (hs : matSat tbl bs sched o st) :
    matStep tbl bs sched st o = st := by
  obtain ⟨i, e, hfi, hgi, hre⟩ := hs
  simp only [matStep]
  rw [hfi]
  simp only [List.getD_eq_getElem?_getD, hgi, Option.getD_some, hre,
    set_self_of_getElem hgi]

theorem materializeList_preserves_sat (tbl : DstTable) (bs : BotSchedule) (sched : Sched)
    {o : Int} {occs : List Int}
    (hd : ∀ o' ∈ occs, localDay (utcToLocal tbl o) ≠ localDay (utcToLocal tbl o'))
    {st : MatState} (hs : matSat tbl bs sched o st) :
    matSat tbl bs sched o (materializeList tbl bs sched occs st) := by
  induction occs generalizing st with
  | nil => exact hs
  | cons a l ih =>
      exact ih (fun o' h => hd o' (List.mem_cons_of_mem _ h))
        (matStep_preserves_sat tbl bs sched (hd a (List.mem_cons_self _ _)) hs)

theorem materializeList_saturates (tbl : DstTable) (bs : BotSchedule) (sched : Sched)
    {occs : List Int}
    (hdisj : occs.Pairwise
      (fun a b => localDay (utcToLocal tbl a) ≠ localDay (utcToLocal tbl b)))
    (st : MatState) :
    ∀ o ∈ occs, matSat tbl bs sched o (materializeList tbl bs sched occs st) := by
  induction occs generalizing st with
  | nil => intro o h; simp at h
  | cons a l ih =>
      intro o ho
      rcases List.mem_cons.mp ho with rfl | ho
      · exact materializeList_preserves_sat tbl bs sched
          (fun o' h => (List.pairwise_cons.mp hdisj).1 o' h)
          (matStep_sat tbl bs sched st o)
      · exact ih (List.pairwise_cons.mp hdisj).2 (matStep tbl bs sched st a) o ho

theorem materializeList_of_sat (tbl : DstTable) (bs : BotSchedule) (sched : Sched)
    {occs : List Int} {st : MatState}
    (hall : ∀ o ∈ occs, matSat tbl bs sched o st) :
    materializeList tbl bs sched occs st = st := by
  induction occs with
  | nil => rfl
  | cons a l ih =>
      have h1 : matStep tbl bs sched st a = st :=
        matStep_of_sat tbl bs sched (hall a (List.mem_cons_self _ _))
      show materializeList tbl bs sched l (matStep tbl bs sched st a) = st
      rw [h1]
      exact ih (fun o h => hall o (List.mem_cons_of_mem _ h))

theorem materializeList_idem (tbl : DstTable) (bs : BotSchedule) (sched : Sched)
    {occs : List Int}
    (hdisj : occs.Pairwise
      (fun a b => localDay (utcToLocal tbl a) ≠ localDay (utcToLocal tbl b)))
    (st : MatState) :
    materializeList tbl bs sched occs (materializeList tbl bs sched occs st) =
      materializeList tbl bs sched occs st :=
  materializeList_of_sat tbl bs sched (materializeList_saturates tbl bs sched hdisj st)

/-- Every row produced by a materializer pass is either an untouched
pre-existing row or carries `start_at` equal to one of the generated
occurrence instants and `notify_at = start_at - offset_minutes`. -/
theorem materializeList_mem (tbl : DstTable) (bs : BotSchedule) (sched : Sched)
    (occs : List Int) :
    ∀ (st : MatState), ∀ e ∈ (materializeList tbl bs sched occs st).events,
      e ∈ st.events ∨
        ∃ o ∈ occs, e.start_at = o ∧ e.notify_at = o - bs.offset_minutes := by
  induction occs with
  | nil => intro st e he; exact Or.inl he
  | cons a l ih =>
      intro st e he
      rcases ih (matStep tbl bs sched st a) e he with h | ⟨o, ho, h1, h2⟩
      · revert h
        simp only [matStep]
        cases hf : st.events.findIdx? (matPred tbl bs sched a) with
        | some i =>
            intro h
            rcases mem_of_mem_set h with h' | h'
            · exact Or.inl h'
            · exact Or.inr ⟨a, List.mem_cons_self _ _, by simp [h', refreshEvent]⟩
        | none =>
            intro h
            rcases List.mem_append.mp h with h' | h'
            · exact Or.inl h'
            · have : e = freshEvent bs sched a (localDay (utcToLocal tbl a)) st.nextId := by
                simpa using h'
              exact Or.inr ⟨a, List.mem_cons_self _ _, by simp [this, freshEvent]⟩
      · exact Or.inr ⟨o, List.mem_cons_of_mem _ ho, h1, h2⟩

/-! ### Claim C1 — idempotent materialization -/

/-- C1: Materialization is idempotent.  Running
`ensure_bot_schedule_has_events` twice for the same notification configuration
and horizon (the 52 generated occurrence dates being pairwise distinct, as
consecutive weekly occurrences are) produces exactly the same store as running
it once: the same rows, hence the same count and the same
`start_at`/`notify_at` on every row. -/
theorem C1_materializer_idempotent (tbl : DstTable) (nowUtc : Int)
    (bs : BotSchedule) (sched : Sched) (st : MatState)
    (hdates : ((next_n_weekly tbl nowUtc (sched.weekday - 1) sched.start_hour
        sched.start_minute 52 true).map (fun o => localDay (utcToLocal tbl o))).Nodup) :
    ensure_bot_schedule_has_events tbl nowUtc bs sched
        (ensure_bot_schedule_has_events tbl nowUtc bs sched st) =
      ensure_bot_schedule_has_events tbl nowUtc bs sched st :=
  materializeList_idem tbl bs sched (List.pairwise_map.mp hdates) st

/-- Witness for C1: the Monday 14:00 configuration materialized twice from the
empty store on Monday 2025-10-20 07:00 UTC. -/
theorem C1_materializer_idempotent_witness :
    ensure_bot_schedule_has_events kyivDst 947940 bsW schedW
        (ensure_bot_schedule_has_events kyivDst 947940 bsW schedW ⟨[], 1⟩) =
      ensure_bot_schedule_has_events kyivDst 947940 bsW schedW ⟨[], 1⟩ :=
  C1_materializer_idempotent kyivDst 947940 bsW schedW ⟨[], 1⟩ (by decide)

/-! ### Claim C10 — missing-contact frame property -/

/-- C10: if a selected due occurrence has no teacher contact handle, the send
routine returns without modifying the occurrence at all — status, `sent_at`,
`send_attempts` and `last_error` included — and the occurrence still satisfies
the dispatcher's due-selection predicate, so it is reselected every cycle and
never marked SKIPPED or SENT. -/
theorem C10_missing_contact_frame (now : Int) (hasStudents sendOk : Bool)
    (e : LessonEvent) (h : e.teacher_chat_id = none) :
    send_attendance_notification now hasStudents sendOk e = e ∧
      (dueEvent now e = true →
        dueEvent now (send_attendance_notification now hasStudents sendOk e) = true) := by
  refine ⟨?_, ?_⟩
  · simp [send_attendance_notification, h]
  · intro hd
    simpa [send_attendance_notification, h] using hd

/-- Witness for C10 on a concrete due occurrence without a chat id. -/
theorem C10_missing_contact_frame_witness :
    send_attendance_notification 948200 true true ev10 = ev10 ∧
      (dueEvent 948200 ev10 = true →
        dueEvent 948200 (send_attendance_notification 948200 true true ev10) = true) :=
  C10_missing_contact_frame 948200 true true ev10 (by decide)

/-! ### Claim C8 — send-failure handling (corrected) -/

/-- C8 as stated is false: on a send failure the source logs the exception and
rolls the transaction back, so `send_attempts` is NOT incremented and no error
text is recorded.  Concretely, for the due occurrence `ev8` (0 prior attempts,
no recorded error) a failing send leaves `send_attempts = 0` and
`last_error = none`. -/
theorem C8_counterexample :
    (send_attendance_notification 948200 true false ev8).status = .PLANNED ∧
    (send_attendance_notification 948200 true false ev8).sent_at = none ∧
    ¬ (send_attendance_notification 948200 true false ev8).send_attempts =
        ev8.send_attempts + 1 ∧
    (send_attendance_notification 948200 true false ev8).last_error = none ∧
    ev8.last_error = none := by
  decide

/-- C8 amended: when sending fails, the occurrence row is left exactly as it
was — status PLANNED with `sent_at` unset, so it is retried next cycle — and
in particular `send_attempts` and `last_error` are left unchanged (the
increment/record described by the spec does not happen). -/
theorem C8_send_failure_row_unchanged (now : Int) (e : LessonEvent) (c : Int)
    (h : e.teacher_chat_id = some c) :
    send_attendance_notification now true false e = e := by
  simp [send_attendance_notification, h]

/-- Witness for the amended C8 at the concrete occurrence `ev8`. -/
theorem C8_send_failure_row_unchanged_witness :
    send_attendance_notification 948200 true false ev8 = ev8 :=
  C8_send_failure_row_unchanged 948200 ev8 777 (by decide)

/-! ### Claim C9 — terminal statuses (corrected) -/

/-- C9 as stated is false: `reset_lesson_event_to_planned` (one of the listed
core operations) unconditionally moves the targeted occurrence back to
PLANNED; applied to the COMPLETED occurrence `evC9` it produces a PLANNED
row. -/
theorem C9_counterexample :
    evC9.status = .COMPLETED ∧
    ((reset_lesson_event_to_planned [evC9] 1).head?.map (fun e => e.status)) =
      some .PLANNED ∧
    LessonEventStatus.COMPLETED ≠ .PLANNED := by
  decide

/-- C9 amended: COMPLETED, SKIPPED and CANCELLED are terminal with respect to
the dispatcher and the cleanup sweeps — a terminal occurrence never satisfies
the dispatcher's due-selection predicate, and both cleanup queries (which only
ever select PLANNED rows) leave it in place — but not with respect to
reset-to-PLANNED, a Materializer refresh, or schedule reactivation, which can
move such an occurrence back to PLANNED (see the counterexample). -/
theorem C9_terminal_preserved_by_dispatcher_and_cleanup
    (now today : Int) (e : LessonEvent) (events : List LessonEvent)
    (hA hC : Nat → Bool) (tbl : DstTable) (sched : Sched)
    (ht : terminalStatus e.status = true) (he : e ∈ events) :
    dueEvent now e = false ∧
    e ∈ cleanup_past_lesson_events events hA hC today ∧
    e ∈ cleanup_outdated_future_events tbl events hA today sched := by
  have hP : (e.status == LessonEventStatus.PLANNED) = false := by
    cases h : e.status <;> simp_all [terminalStatus]
  refine ⟨?_, ?_, ?_⟩
  · simp [dueEvent, hP]
  · simp [cleanup_past_lesson_events, List.mem_filter, he, hP]
  · simp [cleanup_outdated_future_events, List.mem_filter, he, hP]

/-- Witness for the amended C9: the COMPLETED occurrence `evC9` survives both
sweeps untouched and is never selected by the dispatcher. -/
theorem C9_terminal_preserved_witness :
    dueEvent 948200 evC9 = false ∧
    evC9 ∈ cleanup_past_lesson_events [evC9] (fun _ => false) (fun _ => false) 700 ∧
    evC9 ∈ cleanup_outdated_future_events kyivDst [evC9] (fun _ => false) 700 schedW :=
  C9_terminal_preserved_by_dispatcher_and_cleanup 948200 700 evC9 [evC9]
    (fun _ => false) (fun _ => false) kyivDst schedW (by decide) (by decide)

/-! ### Claim C7 — notify-time derivation (corrected) -/

/-- C7 as stated is false in its override clause: `custom_time` is read into a
local variable and never used, so `notify_at` is always
`start_at - offset_minutes`.  For the configuration `bs7` (override 12:00,
offset 0) the first materialized occurrence has `notify_at = start_at`
(14:00 Kyiv = 948180), not the override 12:00 Kyiv converted to UTC
(948060). -/
theorem C7_counterexample :
    ((ensure_bot_schedule_has_events kyivDst 947940 bs7 schedW ⟨[], 1⟩).events.head?.map
        (fun e => e.notify_at)) = some 948180 ∧
    bs7.custom_time = some 720 ∧
    localToUtc kyivDst (658 * 1440 + 720) = 948060 ∧
    (948180 : Int) ≠ 948060 := by
  decide

/-- C7 amended: every occurrence created or refreshed by the materializer has
`start_at` equal to a recurrence instant computed from the lesson's actual
start time (`schedule.start_time`) and `notify_at = start_at -
offset_minutes`; the configuration's explicit override `custom_time` is
ignored — the materializer's result does not depend on it at all. -/
theorem C7_notify_derivation (tbl : DstTable) (nowUtc : Int) (bs : BotSchedule)
    (sched : Sched) (st : MatState) (ct : Option Int) :
    ensure_bot_schedule_has_events tbl nowUtc { bs with custom_time := ct } sched st =
      ensure_bot_schedule_has_events tbl nowUtc bs sched st ∧
    ∀ e ∈ (ensure_bot_schedule_has_events tbl nowUtc bs sched st).events,
      e ∈ st.events ∨
        ∃ o ∈ next_n_weekly tbl nowUtc (sched.weekday - 1) sched.start_hour
            sched.start_minute 52 true,
          e.start_at = o ∧ e.notify_at = o - bs.offset_minutes :=
  ⟨rfl, materializeList_mem tbl bs sched _ st⟩

/-- Witness for the amended C7: concrete configuration with an override. -/
theorem C7_notify_derivation_witness :
    ensure_bot_schedule_has_events kyivDst 947940 { bsW with custom_time := some 720 }
        schedW ⟨[], 1⟩ =
      ensure_bot_schedule_has_events kyivDst 947940 bsW schedW ⟨[], 1⟩ ∧
    ∀ e ∈ (ensure_bot_schedule_has_events kyivDst 947940 bsW schedW ⟨[], 1⟩).events,
      e ∈ (⟨[], 1⟩ : MatState).events ∨
        ∃ o ∈ next_n_weekly kyivDst 947940 (schedW.weekday - 1) schedW.start_hour
            schedW.start_minute 52 true,
          e.start_at = o ∧ e.notify_at = o - bsW.offset_minutes :=
  C7_notify_derivation kyivDst 947940 bsW schedW ⟨[], 1⟩ (some 720)

/-! ### Claim C3 — default-attendance law -/

theorem filter_map_pres {p : α → Bool} {g : α → α} (hp : ∀ x, p (g x) = p x) :
    ∀ l : List α, (l.map g).filter p = (l.filter p).map g := by
  intro l
  induction l with
  | nil => rfl
  | cons a l ih =>
      by_cases h : p a
      · simp [hp, h, ih]
      · simp [hp, h, ih]

/-- C3: for an occurrence with `N` enrolled students and no attendance marks,
`finish` (`save_attendance`) inserts a default PRESENT mark for each of the
`N` students, sets the occurrence to COMPLETED with `completed_at` set, and
the derived statistics report total = N, present = N, absent = 0. -/
theorem C3_default_attendance (enrolled : List Nat) (marks : List Mark)
    (e : LessonEvent) (now marked_by : Int) (_henr : enrolled.Nodup)
    (hmarks : attendance_records marks e.id = []) :
    calculate_attendance_stats
        (attendance_records (save_attendance enrolled marks e now marked_by).1 e.id) =
      (enrolled.length, enrolled.length, 0) ∧
    (save_attendance enrolled marks e now marked_by).2.status = .COMPLETED ∧
    (save_attendance enrolled marks e now marked_by).2.completed_at = some now := by
  have hrec : attendance_records (save_attendance enrolled marks e now marked_by).1 e.id =
      enrolled.map (fun s => (⟨e.id, s, .PRESENT, some marked_by, now⟩ : Mark)) := by
    unfold attendance_records at hmarks ⊢
    simp only [save_attendance]
    have hmiss : enrolled.filter
        (fun s => !((marks.filter (fun m => m.lesson_event_id == e.id)).map
          (fun m => m.student_id)).elem s) = enrolled := by
      rw [hmarks]
      exact List.filter_eq_self.mpr (fun a _ => rfl)
    rw [hmiss]
    rw [filter_map_pres (fun m => by by_cases h : m.lesson_event_id == e.id <;> simp [h])]
    rw [List.filter_append, hmarks, List.nil_append]
    have hnew : (enrolled.map (fun s => (⟨e.id, s, .PRESENT, some marked_by, now⟩ : Mark))).filter
        (fun m => m.lesson_event_id == e.id) =
        enrolled.map (fun s => (⟨e.id, s, .PRESENT, some marked_by, now⟩ : Mark)) := by
      apply List.filter_eq_self.mpr
      intro a ha
      obtain ⟨s, _, rfl⟩ := List.mem_map.mp ha
      simp
    rw [hnew, List.map_map]
    apply List.map_congr_left
    intro s _
    simp
  refine ⟨?_, rfl, rfl⟩
  rw [hrec]
  unfold calculate_attendance_stats
  have hall : ((enrolled.map (fun s => (⟨e.id, s, .PRESENT, some marked_by, now⟩ : Mark))).filter
      (fun m => m.status == .PRESENT)) =
      enrolled.map (fun s => (⟨e.id, s, .PRESENT, some marked_by, now⟩ : Mark)) := by
    apply List.filter_eq_self.mpr
    intro a ha
    obtain ⟨s, _, rfl⟩ := List.mem_map.mp ha
    simp
  rw [hall]
  simp

/-- Witness for C3: three enrolled students, no marks. -/
theorem C3_default_attendance_witness :
    calculate_attendance_stats
        (attendance_records (save_attendance [100, 101, 102] [] ev8 948300 777).1 ev8.id) =
      ([100, 101, 102].length, [100, 101, 102].length, 0) ∧
    (save_attendance [100, 101, 102] [] ev8 948300 777).2.status = .COMPLETED ∧
    (save_attendance [100, 101, 102] [] ev8 948300 777).2.completed_at = some 948300 :=
  C3_default_attendance [100, 101, 102] [] ev8 948300 777 (by decide) (by decide)

/-! ### Claim C6 — at-most-one automatic compensation -/

/-- `create_automatic_payroll` is the identity when a payroll row already
exists for the occurrence. -/
theorem create_automatic_payroll_of_existing {db : PayrollDB} {eid : Nat}
    (h : has_existing_payroll db eid = true) :
    create_automatic_payroll db eid = db := by
  simp [create_automatic_payroll, h]

/-- Under the creation conditions, `create_automatic_payroll` appends exactly
the automatic record. -/
theorem create_automatic_payroll_eq (db : PayrollDB) (eid : Nat)
    (ev : LessonEvent) (r : PayRate)
    (hno : has_existing_payroll db eid = false)
    (hev : db.events.find? (fun x => x.id == eid) = some ev)
    (hteach : db.teachers.elem ev.teacher_id = true)
    (hpres : count_present_students db eid ≠ 0)
    (hrate : get_active_pay_rate db ev.teacher_id ev.date = some r)
    (hamt : 0 < calculate_lesson_payment db eid r) :
    create_automatic_payroll db eid =
      { db with payrolls := db.payrolls ++
          [⟨ev.teacher_id, eid, .AUTO, calculate_lesson_payment db eid r⟩] } := by
  have hpres' : (count_present_students db eid == 0) = false := by
    simpa using hpres
  have hamt' : ¬ calculate_lesson_payment db eid r ≤ 0 := by omega
  have hteachm : ev.teacher_id ∈ db.teachers := by simpa using hteach
  simp [create_automatic_payroll, hno, hev, hrate, hteachm, hpres', hamt']

/-- C6: calling the Derived Record Calculator twice sequentially on the same
occurrence produces exactly one automatic CompensationRecord (and the second
call leaves the store unchanged); moreover a record is created only when at
least one student is marked present, an active pay-rate definition exists for
the lesson date, the computed amount is positive, and no payroll row exists
yet for the occurrence. -/
theorem C6_at_most_one_automatic_payroll (db : PayrollDB) (eid : Nat)
    (ev : LessonEvent) (r : PayRate)
    (hno : has_existing_payroll db eid = false)
    (hev : db.events.find? (fun x => x.id == eid) = some ev)
    (hteach : db.teachers.elem ev.teacher_id = true)
    (hpres : count_present_students db eid ≠ 0)
    (hrate : get_active_pay_rate db ev.teacher_id ev.date = some r)
    (hamt : 0 < calculate_lesson_payment db eid r) :
    countAutoPayrolls (create_automatic_payroll (create_automatic_payroll db eid) eid) eid = 1 ∧
    create_automatic_payroll (create_automatic_payroll db eid) eid =
      create_automatic_payroll db eid ∧
    (∀ db' : PayrollDB, create_automatic_payroll db' eid ≠ db' →
      has_existing_payroll db' eid = false ∧
      count_present_students db' eid ≠ 0 ∧
      ∃ ev' r', db'.events.find? (fun x => x.id == eid) = some ev' ∧
        get_active_pay_rate db' ev'.teacher_id ev'.date = some r' ∧
        0 < calculate_lesson_payment db' eid r') := by
  have h1 := create_automatic_payroll_eq db eid ev r hno hev hteach hpres hrate hamt
  have hex : has_existing_payroll (create_automatic_payroll db eid) eid = true := by
    rw [h1]
    simp [has_existing_payroll]
  have h2 := create_automatic_payroll_of_existing hex
  refine ⟨?_, h2, ?_⟩
  · rw [h2, h1]
    unfold countAutoPayrolls
    rw [List.filter_append]
    have hall : ∀ x ∈ db.payrolls, ¬ x.lesson_event_id = eid := by
      simpa [has_existing_payroll, List.any_eq_false] using hno
    have hz : db.payrolls.filter
        (fun p => p.lesson_event_id == eid && p.basis == .AUTO) = [] := by
      rw [List.filter_eq_nil_iff]
      intro a ha
      simp [hall a ha]
    rw [hz]
    simp
  · intro db' hne
    by_cases g1 : has_existing_payroll db' eid
    · exact absurd (create_automatic_payroll_of_existing g1) hne
    have g1' : has_existing_payroll db' eid = false := Bool.eq_false_iff.mpr g1
    cases gf : db'.events.find? (fun x => x.id == eid) with
    | none =>
        exact absurd (by simp [create_automatic_payroll, g1', gf]) hne
    | some ev' =>
        by_cases g2 : ev'.teacher_id ∈ db'.teachers
        · by_cases g3 : count_present_students db' eid = 0
          · exact absurd (by simp [create_automatic_payroll, g1', gf, g2, g3]) hne
          · have g3' : (count_present_students db' eid == 0) = false := by simpa using g3
            cases gr : get_active_pay_rate db' ev'.teacher_id ev'.date with
            | none =>
                exact absurd
                  (by simp [create_automatic_payroll, g1', gf, g2, g3', gr]) hne
            | some r' =>
                by_cases g4 : calculate_lesson_payment db' eid r' ≤ 0
                · exact absurd
                    (by simp [create_automatic_payroll, g1', gf, g2, g3', gr, g4]) hne
                · exact ⟨g1', g3, ⟨ev', r', rfl, gr, by omega⟩⟩
        · exact absurd (by simp [create_automatic_payroll, g1', gf, g2]) hne

/-- Witness for C6 on the concrete payroll database `dbW6`. -/
theorem C6_at_most_one_automatic_payroll_witness :
    countAutoPayrolls (create_automatic_payroll (create_automatic_payroll dbW6 10) 10) 10 = 1 ∧
    create_automatic_payroll (create_automatic_payroll dbW6 10) 10 =
      create_automatic_payroll dbW6 10 ∧
    (∀ db' : PayrollDB, create_automatic_payroll db' 10 ≠ db' →
      has_existing_payroll db' 10 = false ∧
      count_present_students db' 10 ≠ 0 ∧
      ∃ ev' r', db'.events.find? (fun x => x.id == 10) = some ev' ∧
        get_active_pay_rate db' ev'.teacher_id ev'.date = some r' ∧
        0 < calculate_lesson_payment db' 10 r') :=
  C6_at_most_one_automatic_payroll dbW6 10 evW6 ⟨7, .PER_LESSON, 50000, 600, none⟩
    (by decide) (by decide) (by decide) (by decide) (by decide) (by decide)

/-! ### Time-conversion round-trip lemmas (claims C4, C5) -/

/-- Converting a Kyiv wall-clock minute to UTC and back is the identity,
except inside the spring-forward gap, where Python's `fold=0` semantics shifts
the reading one hour later — still within the same small morning window. -/
theorem utcToLocal_localToUtc (tbl : DstTable) (hWF : WFdst tbl) (w : Int) :
    utcToLocal tbl (localToUtc tbl w) = w ∨
      (utcToLocal tbl (localToUtc tbl w) = w + 60 ∧
        180 ≤ w % 1440 ∧ w % 1440 < 240) := by
  cases hL : inDst (dstShift tbl) w with
  | true =>
      have hu : localToUtc tbl w = w - 180 := by simp [localToUtc, offL, hL]
      obtain ⟨p, hp, h1, h2⟩ : ∃ p ∈ dstShift tbl, p.1 ≤ w ∧ w < p.2 := by
        simpa [inDst, List.any_eq_true] using hL
      obtain ⟨q, hq, rfl⟩ := List.mem_map.mp hp
      have hin : inDst tbl (w - 180) = true := by
        simp only [inDst, List.any_eq_true]
        refine ⟨q, hq, ?_⟩
        simp only [Bool.and_eq_true, decide_eq_true_eq]
        constructor <;> [skip; skip] <;> omega
      left
      rw [hu]
      simp [utcToLocal, offU, hin]
  | false =>
      have hu : localToUtc tbl w = w - 120 := by simp [localToUtc, offL, hL]
      cases hU : inDst tbl (w - 120) with
      | false =>
          left
          rw [hu]
          simp [utcToLocal, offU, hU]
      | true =>
          obtain ⟨q, hq, h1, h2⟩ : ∃ q ∈ tbl, q.1 ≤ w - 120 ∧ w - 120 < q.2 := by
            simpa [inDst, List.any_eq_true] using hU
          have hall : ∀ p ∈ dstShift tbl, ¬(p.1 ≤ w ∧ w < p.2) := by
            have h' : ∀ a b : Int, (a, b) ∈ dstShift tbl → a ≤ w → b ≤ w := by
              simpa [inDst] using hL
            rintro ⟨a, b⟩ hp ⟨ha, hb⟩
            exact absurd (h' a b hp ha) (by omega)
          have hnot : ¬(q.1 + 180 ≤ w ∧ w < q.2 + 180) :=
            hall (q.1 + 180, q.2 + 180) (List.mem_map_of_mem _ hq)
          have hq60 : q.1 % 1440 = 60 := hWF q hq
          right
          refine ⟨?_, by omega, by omega⟩
          rw [hu]
          simp only [utcToLocal, offU, hU, if_pos]
          omega

/-- The Kyiv calendar date survives the local→UTC→local round trip. -/
theorem localDay_roundtrip (tbl : DstTable) (hWF : WFdst tbl) (w : Int) :
    localDay (utcToLocal tbl (localToUtc tbl w)) = localDay w := by
  rcases utcToLocal_localToUtc tbl hWF w with h | ⟨h, h1, h2⟩
  · rw [h]
  · rw [h]
    unfold localDay
    omega

/-! ### Claim C4 — include-today boundary of the Recurrence Generator -/

/-- C4: with `include_today = true` and the target weekday equal to the
current Kyiv weekday, the generator includes today exactly when the target
wall-clock time is strictly after the current wall-clock time; otherwise the
first emitted instant falls exactly seven days later.  The statement holds
for every call instant `nowUtc`. -/
theorem C4_include_today_boundary (tbl : DstTable) (hWF : WFdst tbl) (nowUtc : Int)
    (local_hour local_minute : Int)
    (hh0 : 0 ≤ local_hour) (hh1 : local_hour < 24)
    (hm0 : 0 ≤ local_minute) (hm1 : local_minute < 60)
    (wd : Int) (hwd : wd = weekdayOf (utcToLocal tbl nowUtc)) (n : Nat) (hn : 0 < n) :
    (localDay (utcToLocal tbl nowUtc) * 1440 + local_hour * 60 + local_minute >
        utcToLocal tbl nowUtc →
      ∃ f, (next_n_weekly tbl nowUtc wd local_hour local_minute n true).head? = some f ∧
        localDay (utcToLocal tbl f) = localDay (utcToLocal tbl nowUtc)) ∧
    (localDay (utcToLocal tbl nowUtc) * 1440 + local_hour * 60 + local_minute ≤
        utcToLocal tbl nowUtc →
      ∃ f, (next_n_weekly tbl nowUtc wd local_hour local_minute n true).head? = some f ∧
        localDay (utcToLocal tbl f) = localDay (utcToLocal tbl nowUtc) + 7) := by
  subst hwd
  cases n with
  | zero => exact absurd hn (by omega)
  | succ k =>
      constructor
      · intro hgt
        have hhead : (next_n_weekly tbl nowUtc (weekdayOf (utcToLocal tbl nowUtc))
              local_hour local_minute (k + 1) true).head? =
            some (localToUtc tbl (localDay (utcToLocal tbl nowUtc) * 1440 +
              local_hour * 60 + local_minute)) := by
          simp [next_n_weekly, List.range_succ_eq_map, Int.zero_emod, hgt]
        refine ⟨_, hhead, ?_⟩
        rw [localDay_roundtrip tbl hWF]
        unfold localDay
        omega
      · intro hle
        have hnot : ¬ (localDay (utcToLocal tbl nowUtc) * 1440 + local_hour * 60 +
            local_minute > utcToLocal tbl nowUtc) := by omega
        have hhead : (next_n_weekly tbl nowUtc (weekdayOf (utcToLocal tbl nowUtc))
              local_hour local_minute (k + 1) true).head? =
            some (localToUtc tbl (localDay (utcToLocal tbl nowUtc) * 1440 +
              local_hour * 60 + local_minute + 7 * 1440)) := by
          simp [next_n_weekly, List.range_succ_eq_map, Int.zero_emod, hnot]
        refine ⟨_, hhead, ?_⟩
        rw [localDay_roundtrip tbl hWF]
        unfold localDay
        omega

/-- Witness for C4, both boundary directions, on Monday 2025-10-20 10:00 Kyiv:
target 14:00 (later than now) includes today; target 09:00 (not later) rolls
seven days forward. -/
theorem C4_include_today_boundary_witness :
    (∃ f, (next_n_weekly kyivDst 947940 0 14 0 2 true).head? = some f ∧
        localDay (utcToLocal kyivDst f) = localDay (utcToLocal kyivDst 947940)) ∧
    (∃ f, (next_n_weekly kyivDst 947940 0 9 0 2 true).head? = some f ∧
        localDay (utcToLocal kyivDst f) = localDay (utcToLocal kyivDst 947940) + 7) :=
  ⟨(C4_include_today_boundary kyivDst (by decide) 947940 14 0 (by decide) (by decide)
      (by decide) (by decide) 0 (by decide) 2 (by decide)).1 (by decide),
   (C4_include_today_boundary kyivDst (by decide) 947940 9 0 (by decide) (by decide)
      (by decide) (by decide) 0 (by decide) 2 (by decide)).2 (by decide)⟩

/-! ### Claim C5 — weekly recurrence local-time consistency (corrected) -/

/-- C5 as stated is false: the generator steps in exact 7-day UTC increments,
so across the Kyiv DST end the local wall time shifts.  Generating two Monday
14:00 occurrences on Monday 2025-10-20 10:00 Kyiv: the first falls at 14:00
local, the second (2025-10-27, after the DST end on 2025-10-26) at 13:00
local — not the target 14:00. -/
theorem C5_counterexample :
    (next_n_weekly kyivDst 947940 0 14 0 2 true).getD 0 0 = 948180 ∧
    timeOfDay (utcToLocal kyivDst 948180) = 14 * 60 ∧
    (next_n_weekly kyivDst 947940 0 14 0 2 true).getD 1 0 = 958260 ∧
    timeOfDay (utcToLocal kyivDst 958260) = 13 * 60 ∧
    (13 * 60 : Int) ≠ 14 * 60 := by
  decide

theorem next_n_weekly_eq (tbl : DstTable) (nowUtc wd h m : Int) (n : Nat) (inc : Bool) :
    next_n_weekly tbl nowUtc wd h m n inc =
      (List.range n).map
        (fun i : Nat => nnwFirst tbl nowUtc wd h m inc + 10080 * (i : Int)) :=
  rfl

theorem weekly_shift_preserves_local (t k : Int) :
    timeOfDay (t + 10080 * k) = timeOfDay t ∧
    weekdayOf (t + 10080 * k) = weekdayOf t := by
  have he : t + 10080 * k = t + 1440 * (7 * k) := by ring
  constructor
  · unfold timeOfDay
    rw [he, Int.add_mul_emod_self_left]
  · unfold weekdayOf localDay
    rw [he, Int.add_mul_ediv_left _ _ (by norm_num : (1440 : Int) ≠ 0),
      Int.add_mul_emod_self_left]

/-- C5 amended: the generator returns an ordered list of exactly `n` UTC
instants spaced exactly seven days (10080 minutes) apart; any two returned
instants that fall under the same Kyiv UTC offset share the same local
weekday and local time-of-day, but across a DST transition the local
time-of-day shifts by the offset change (see the counterexample). -/
theorem C5_weekly_structure (tbl : DstTable) (nowUtc wd h m : Int) (n : Nat)
    (inc : Bool) :
    (next_n_weekly tbl nowUtc wd h m n inc).length = n ∧
    (∀ i : Nat, i + 1 < n →
      (next_n_weekly tbl nowUtc wd h m n inc)[i + 1]? =
        ((next_n_weekly tbl nowUtc wd h m n inc)[i]?).map (fun x => x + 10080)) ∧
    (∀ (i j : Nat) (x y : Int),
      (next_n_weekly tbl nowUtc wd h m n inc)[i]? = some x →
      (next_n_weekly tbl nowUtc wd h m n inc)[j]? = some y →
      offU tbl x = offU tbl y →
      timeOfDay (utcToLocal tbl x) = timeOfDay (utcToLocal tbl y) ∧
      weekdayOf (utcToLocal tbl x) = weekdayOf (utcToLocal tbl y)) := by
  rw [next_n_weekly_eq]
  refine ⟨by rw [List.length_map, List.length_range], ?_, ?_⟩
  · intro i hi
    have hi' : i < n := by omega
    rw [List.getElem?_map, List.getElem?_range hi, List.getElem?_map,
      List.getElem?_range hi']
    simp only [Option.map_some']
    congr 1
    push_cast
    ring
  · intro i j x y hx hy hoff
    have hi : i < n := by
      by_contra h0
      rw [List.getElem?_map,
        List.getElem?_eq_none (by rw [List.length_range]; omega)] at hx
      cases hx
    have hj : j < n := by
      by_contra h0
      rw [List.getElem?_map,
        List.getElem?_eq_none (by rw [List.length_range]; omega)] at hy
      cases hy
    rw [List.getElem?_map, List.getElem?_range hi] at hx
    rw [List.getElem?_map, List.getElem?_range hj] at hy
    simp only [Option.map_some', Option.some_inj] at hx hy
    have hxy : x = y + 10080 * ((i : Int) - (j : Int)) := by
      rw [← hx, ← hy]
      ring
    have hloc : utcToLocal tbl x = utcToLocal tbl y + 10080 * ((i : Int) - (j : Int)) := by
      have hoff' : offU tbl (y + 10080 * ((i : Int) - (j : Int))) = offU tbl y :=
        hxy ▸ hoff
      unfold utcToLocal
      rw [hxy, hoff']
      ring
    rw [hloc]
    exact weekly_shift_preserves_local (utcToLocal tbl y) ((i : Int) - (j : Int))

/-! ### Claim C2 — dispatch exclusivity under two concurrent pollers -/

/-- C2: if two concurrent dispatcher poll cycles both run over the same due
occurrence (PLANNED, `notify_at ≤ now`, `sent_at` unset, with a teacher chat
id, enrolled students, and a send that succeeds), then in every interleaving
of the two cycles — each cycle being its atomic locking SELECT
(`FOR UPDATE SKIP LOCKED`) followed by its processing/COMMIT step — exactly
one send is performed and the occurrence undergoes exactly one PLANNED→SENT
transition with `sent_at` set. -/
theorem C2_dispatch_exclusivity (e : LessonEvent) (now : Int)
    (hdue : dueEvent now e = true) (c : Int) (hchat : e.teacher_chat_id = some c)
    (ord : List PollAct)
    (hord : ord ∈ interleavings (pollCycle false) (pollCycle true)) :
    (runActs now true true ⟨e, none, 0, 0⟩ ord).sends = 1 ∧
    (runActs now true true ⟨e, none, 0, 0⟩ ord).sentTransitions = 1 ∧
    (runActs now true true ⟨e, none, 0, 0⟩ ord).ev.status = .SENT ∧
    (runActs now true true ⟨e, none, 0, 0⟩ ord).ev.sent_at = some now := by
  have hdue' : (e.status = .PLANNED ∧ e.notify_at ≤ now) ∧ e.sent_at = none := by
    simpa [dueEvent] using hdue
  obtain ⟨⟨h1, h2⟩, h3⟩ := hdue'
  have hP : (e.status == LessonEventStatus.PLANNED) = true := by simp [h1]
  have hl : interleavings (pollCycle false) (pollCycle true) =
      [[.sel false, .proc false, .sel true, .proc true],
       [.sel false, .sel true, .proc false, .proc true],
       [.sel false, .sel true, .proc true, .proc false],
       [.sel true, .sel false, .proc false, .proc true],
       [.sel true, .sel false, .proc true, .proc false],
       [.sel true, .proc true, .sel false, .proc false]] := by
    simp [interleavings, pollCycle]
  rw [hl] at hord
  simp only [List.mem_cons, List.not_mem_nil, or_false] at hord
  rcases hord with rfl | rfl | rfl | rfl | rfl | rfl <;>
    simp [runActs, applyAct, dueEvent, hchat, hP, h2, h3]

/-- Witness for C2 on a concrete due occurrence and one concrete
interleaving. -/
theorem C2_dispatch_exclusivity_witness :
    (runActs 948200 true true ⟨ev8, none, 0, 0⟩
        [.sel false, .proc false, .sel true, .proc true]).sends = 1 ∧
    (runActs 948200 true true ⟨ev8, none, 0, 0⟩
        [.sel false, .proc false, .sel true, .proc true]).sentTransitions = 1 ∧
    (runActs 948200 true true ⟨ev8, none, 0, 0⟩
        [.sel false, .proc false, .sel true, .proc true]).ev.status = .SENT ∧
    (runActs 948200 true true ⟨ev8, none, 0, 0⟩
        [.sel false, .proc false, .sel true, .proc true]).ev.sent_at = some 948200 :=
  C2_dispatch_exclusivity ev8 948200 (by decide) 777 (by decide)
    [.sel false, .proc false, .sel true, .proc true]
    (by simp [interleavings, pollCycle])

/-- Witness for the amended C5 at the horizon-3 Monday 14:00 example: length
and spacing, and the local-time conjunct exercised on occurrences 1 and 2
(2025-10-27 and 2025-11-03, both EET while the head is still EEST). -/
theorem C5_weekly_structure_witness :
    (next_n_weekly kyivDst 947940 0 14 0 3 true).length = 3 ∧
    (next_n_weekly kyivDst 947940 0 14 0 3 true)[1]? =
      ((next_n_weekly kyivDst 947940 0 14 0 3 true)[0]?).map (fun x => x + 10080) ∧
    (timeOfDay (utcToLocal kyivDst 958260) = timeOfDay (utcToLocal kyivDst 968340) ∧
      weekdayOf (utcToLocal kyivDst 958260) = weekdayOf (utcToLocal kyivDst 968340)) := by
  have h := C5_weekly_structure kyivDst 947940 0 14 0 3 true
  exact ⟨h.1, h.2.1 0 (by decide),
    h.2.2 1 2 958260 968340 (by decide) (by decide) (by decide)⟩
